import Mathlib

/-!
# Verification of the `http` module of ycmd-racer (`src/http/mod.rs`)

This file shallowly embeds the request-pipeline code of `src/http/mod.rs`:
the configuration, the error taxonomy, the middleware chain built by
`serve`, the route table, the server handle with `close` and `addr`, and a
request-processing model for the middleware semantics.  External
collaborators (hyper's listener, iron's router dispatch, the `persistent`
middleware hooks, the handler modules `definition`/`file`/`completion`/
`ping` which are not under `src/`) are modelled from the specification and
marked as such in their doc comments.
-/

namespace Racerd

/-- The `Config` fields read by `serve` (spec §3): `port` and
`print_http_logs`.  Mirrors the fields used in `src/http/mod.rs`. -/
structure Config where
  port : Nat
  print_http_logs : Bool
deriving DecidableEq, Repr

/-- An error of the underlying HTTP server library (`hyper::Error`),
kept abstract: only its identity matters to the `http` module. -/
structure HyperError where
  msg : String
deriving DecidableEq, Repr

/-- Embeds `enum Error` of `src/http/mod.rs` lines 58-64: the only live variant is
`HttpServer(hyper::Error)` (the `HttpApp` variant is commented out in the
source). -/
inductive Error where
  | HttpServer (e : HyperError)
deriving DecidableEq, Repr

/-- Embeds `impl From` for `Error` (`src/http/mod.rs` lines 66-70):
wraps the hyper error in `Error::HttpServer`. -/
def Error.fromHyper (e : HyperError) : Error := Error.HttpServer e

/-- A socket address as displayed by `format!("{}", socket)`:
an IP part and a port. -/
structure SocketAddr where
  ip : String
  port : Nat
deriving DecidableEq, Repr

/-- Display of a socket address, as Rust's `format!("{}", socket)`
produces: `"<ip>:<port>"`. -/
def SocketAddr.display (a : SocketAddr) : String :=
  a.ip ++ ":" ++ toString a.port

/-- Embeds `hyper::server::Listening`: the running listener.  `socket` is the
bound address (read by `Server::addr`); `accepting` models the
spec-described lifecycle state ("once `close` succeeds, no further
connections are accepted"). -/
structure Listening where
  socket : SocketAddr
  accepting : Bool
deriving DecidableEq, Repr

/-- The single engine instance handed to `serve` (a
`Box<SemanticEngine + Send>`); its analysis operations are out of scope,
only its identity matters, so it is kept abstract as an id. -/
structure EngineInstance where
  id : Nat
deriving DecidableEq, Repr

/-- A before-handler linked into the chain by `serve`
(`src/http/mod.rs` lines 113-124):
logging (`log_before`), engine attachment
(`Write::<EngineProvider>::one(Box::new(engine))`), and the body-size
limit (`Read::<bodyparser::MaxBodyLength>::one(cap)`). -/
inductive BeforeMiddleware where
  | logBefore
  | engineWrite (engine : EngineInstance)
  | maxBodyLength (cap : Nat)
deriving DecidableEq, Repr

/-- An after-handler linked into the chain by `serve`
(`src/http/mod.rs` lines 126-129): logging (`log_after`). -/
inductive AfterMiddleware where
  | logAfter
deriving DecidableEq, Repr

/-- The iron `Chain`: ordered before-handlers and after-handlers wrapped
around the router (the router of `serve` is the fixed table embedded as
`routerLookup` below). -/
structure Chain where
  before : List BeforeMiddleware
  after : List AfterMiddleware
deriving DecidableEq, Repr

/-- Embeds `Chain::new(router!(...))`: a chain with no middleware linked yet. -/
def Chain.new : Chain := { before := [], after := [] }

/-- Embeds `chain.link_before(m)`: appends `m` to the before-handlers, in link
order. -/
def Chain.linkBefore (c : Chain) (m : BeforeMiddleware) : Chain :=
  { c with before := c.before ++ [m] }

/-- Embeds `chain.link_after(m)`: appends `m` to the after-handlers, in link
order. -/
def Chain.linkAfter (c : Chain) (m : AfterMiddleware) : Chain :=
  { c with after := c.after ++ [m] }

/-- HTTP methods relevant to routing; the route table uses `post` and
`get`, the rest stand for "any other method". -/
inductive Method where
  | get | post | put | delete | head | options | patch
deriving DecidableEq, Repr

/-- The four route handlers named in the `router!` invocation of `serve`
(`src/http/mod.rs` lines 107-111); their bodies live in the handler
modules, which only their names are needed from here. -/
inductive Handler where
  | fileParse
  | definitionFind
  | completionList
  | pingPong
deriving DecidableEq, Repr

/-- The `router!` table of `serve` (`src/http/mod.rs` lines 107-111):
exact method+path match against the four fixed routes, anything else is
unrouted. -/
def routerLookup (m : Method) (p : String) : Option Handler :=
  if m = Method.post ∧ p = "/parse_file" then some Handler.fileParse
  else if m = Method.post ∧ p = "/find_definition" then some Handler.definitionFind
  else if m = Method.post ∧ p = "/list_completions" then some Handler.completionList
  else if m = Method.get ∧ p = "/ping" then some Handler.pingPong
  else none

/-- The middleware chain built by `serve` (`src/http/mod.rs` lines
107-129), link call by link call in source order: conditionally
`log_before`, then the engine provider, then the body-length cap of
`1024 * 1024 * 10` bytes, and conditionally `log_after`. -/
def serveChain (config : Config) (engine : EngineInstance) : Chain :=
  let chain := Chain.new
  -- log_before must be first middleware in before chain
  let chain := if config.print_http_logs then chain.linkBefore BeforeMiddleware.logBefore
               else chain
  let chain := chain.linkBefore (BeforeMiddleware.engineWrite engine)
  -- Body parser middleware
  let chain := chain.linkBefore (BeforeMiddleware.maxBodyLength (1024 * 1024 * 10))
  -- log_after must be last middleware in after chain
  let chain := if config.print_http_logs then chain.linkAfter AfterMiddleware.logAfter
               else chain
  chain

/-- The host string passed to `app.http` by `serve`
(`src/http/mod.rs` line 132): `format!("0.0.0.0:{}", config.port)`. -/
def serveHost (config : Config) : String :=
  "0.0.0.0:" ++ toString config.port

/-- Embeds `struct Server` (`src/http/mod.rs` lines 143-145): wraps the
`hyper::server::Listening` handle. -/
structure Server where
  inner : Listening
deriving DecidableEq, Repr

/-- Embeds `serve` (`src/http/mod.rs` lines 103-137): builds the chain, then
starts the listener on `"0.0.0.0:{port}"` and wraps the outcome.
The start of the hyper listener (`app.http(&host[..])`) is an external
effect, passed in as `startHttp`; `try!` maps its error through
`From<hyper::Error>` into `Error::HttpServer`. -/
def serve (config : Config) (engine : EngineInstance)
    (startHttp : String → Except HyperError Listening) : Except Error Server :=
  let _chain := serveChain config engine
  match startHttp (serveHost config) with
  | Except.ok listening => Except.ok { inner := listening }
  | Except.error e => Except.error (Error.fromHyper e)

/-- Modelled from the spec: closing the hyper listener
(`self.inner.close()`, a component missing from `src/`) stops the server
from accepting further connections when it succeeds, and reports a hyper
error when it fails.  The outcome of the underlying operation is passed
in as `outcome`. -/
def Listening.closeListener (l : Listening) (outcome : Except HyperError Unit) :
    Except HyperError Listening :=
  match outcome with
  | Except.ok _ => Except.ok { l with accepting := false }
  | Except.error e => Except.error e

/-- Embeds `Server::close` (`src/http/mod.rs` lines 149-151):
`Ok(try!(self.inner.close()))`.  Returns the `Result<()>` together with
the updated server (modelling `&mut self`). -/
def Server.close (s : Server) (outcome : Except HyperError Unit) :
    Except Error Unit × Server :=
  match s.inner.closeListener outcome with
  | Except.ok l => (Except.ok (), { inner := l })
  | Except.error e => (Except.error (Error.fromHyper e), s)

/-- Embeds `Server::addr` (`src/http/mod.rs` lines 165-167):
`format!("{}", self.inner.socket)`. -/
def Server.addr (s : Server) : String :=
  s.inner.socket.display

/-- Splits a character list at its first `':'`; used to read a
`"<ip>:<port>"` host string. -/
def breakColon : List Char → Option (List Char × List Char)
  | [] => none
  | c :: rest =>
      if c = ':' then some ([], rest)
      else
        match breakColon rest with
        | some (a, b) => some (c :: a, b)
        | none => none

/-- Reads a decimal numeral from a character list. -/
def digitsToNat : List Char → Option Nat
  | [] => none
  | l => go l 0
where
  go : List Char → Nat → Option Nat
    | [], acc => some acc
    | c :: rest, acc =>
        if c.isDigit then go rest (acc * 10 + (c.toNat - '0'.toNat))
        else none

/-- Parses a `"<ip>:<port>"` host string into a `SocketAddr`. -/
def parseSocketAddr (host : String) : Option SocketAddr :=
  match breakColon host.data with
  | some (a, b) =>
      match digitsToNat b with
      | some n => some { ip := String.mk a, port := n }
      | none => none
  | none => none

/-- Modelled from the spec: a successful start of the hyper listener
(`app.http`, external to `src/`) on a well-formed `"<ip>:<port>"` host
binds exactly that address and begins accepting connections; the doc
example of `Server::addr` records `addr()` returning `"0.0.0.0:3000"`
after serving on port 3000. -/
def hyperHttpBindOk (host : String) : Except HyperError Listening :=
  match parseSocketAddr host with
  | some a => Except.ok { socket := a, accepting := true }
  | none => Except.error { msg := "invalid address" }

-- -----------------------------------------------------------------------
-- Request-processing model for the middleware semantics.

/-- An inbound request as seen by the chain: method, path, and the size
of its body in bytes (the chain inspects nothing else of the body).
Modelled from the spec: request decoding lives in the handler modules,
which are not under `src/`. -/
structure Request where
  method : Method
  path : String
  bodyLen : Nat
deriving DecidableEq, Repr

/-- An HTTP response: status code and body. -/
structure Response where
  status : Nat
  body : String
deriving DecidableEq, Repr

/-- A client-error response is one with a 4xx status. -/
def isClientError (r : Response) : Bool :=
  400 ≤ r.status && r.status < 500

/-- The standard not-found response produced by the iron router for an
unmatched method+path (modelled from the spec: the router crate is
external to `src/`). -/
def notFoundResponse : Response := { status := 404, body := "Not Found" }

/-- The client-error response produced when the request body exceeds the
configured cap (modelled from the spec: "rejects ... with a client-error
response"). -/
def bodyTooLargeResponse : Response :=
  { status := 413, body := "Request body too large" }

/-- The per-request context (iron's request extensions typemap): the
reference to the attached engine, and the configured body-length cap. -/
structure ReqCtx where
  engineRef : Option Nat
  maxLen : Option Nat
deriving DecidableEq, Repr

/-- The context at the start of a request: nothing attached yet. -/
def initCtx : ReqCtx := { engineRef := none, maxLen := none }

/-- Modelled from the spec: the before-hook of each linked middleware
(the `logger`, `persistent::Write` and `persistent::Read` crates are
external to `src/`).  `log_before` records a log line and leaves the
request alone; the engine provider exposes a reference to its single
installed instance in the request context; the body-length middleware
publishes the configured cap in the request context (the limit itself is
enforced at the body-read step).  Each hook returns the middleware
entry as it remains in the chain after the request. -/
def runBefore (mw : BeforeMiddleware) (ctx : ReqCtx) : BeforeMiddleware × ReqCtx :=
  match mw with
  | BeforeMiddleware.logBefore => (BeforeMiddleware.logBefore, ctx)
  | BeforeMiddleware.engineWrite eng =>
      (BeforeMiddleware.engineWrite eng, { ctx with engineRef := some eng.id })
  | BeforeMiddleware.maxBodyLength cap =>
      (BeforeMiddleware.maxBodyLength cap, { ctx with maxLen := some cap })

/-- Runs the before-handlers in chain order, threading the context. -/
def runBeforePhase : List BeforeMiddleware → ReqCtx → List BeforeMiddleware × ReqCtx
  | [], ctx => ([], ctx)
  | mw :: rest, ctx =>
      let (mw, ctx) := runBefore mw ctx
      let (rest, ctx) := runBeforePhase rest ctx
      (mw :: rest, ctx)

/-- The outcome of processing one request: the response, and which route
handler (if any) was invoked. -/
structure Outcome where
  response : Response
  invoked : Option Handler
deriving DecidableEq, Repr

/-- Modelled from the spec: a route handler's response (handler bodies
live in the `definition`/`file`/`completion`/`ping` modules, not under
`src/`); only the fact of its invocation matters to the claims here. -/
def runHandler (_h : Handler) (_ctx : ReqCtx) (_req : Request) : Response :=
  { status := 200, body := "" }

/-- Router dispatch after the before-phase: exact method+path lookup; an
unmatched combination yields the standard not-found response with no
handler invoked. -/
def dispatch (ctx : ReqCtx) (req : Request) : Outcome :=
  match routerLookup req.method req.path with
  | some h => { response := runHandler h ctx req, invoked := some h }
  | none => { response := notFoundResponse, invoked := none }

/-- Modelled from the spec: one request through the chain.  The
before-handlers run in order; then, if a body-length cap was published
and the body exceeds it, the body-read step short-circuits with a
client-error response and no handler runs; otherwise the router
dispatches.  Returns the chain as it remains after the request together
with the outcome. -/
def processRequest (chain : Chain) (req : Request) : Chain × Outcome :=
  let (before, ctx) := runBeforePhase chain.before initCtx
  let outcome :=
    match ctx.maxLen with
    | some cap =>
        if cap < req.bodyLen then { response := bodyTooLargeResponse, invoked := none }
        else dispatch ctx req
    | none => dispatch ctx req
  ({ chain with before := before }, outcome)

/-- Whether a before-middleware entry is the engine provider. -/
def isEngineWrite : BeforeMiddleware → Bool
  | BeforeMiddleware.engineWrite _ => true
  | _ => false

-- -----------------------------------------------------------------------
-- Concrete values used as evaluation witnesses.

/-- A concrete configuration with logging disabled. -/
def cfg0 : Config := { port := 4000, print_http_logs := false }

/-- A concrete configuration on port 3000 with logging enabled. -/
def cfg3000 : Config := { port := 3000, print_http_logs := true }

/-- A concrete engine instance. -/
def eng0 : EngineInstance := { id := 0 }

/-- A listener-start outcome that fails (for instance, the port is
already bound). -/
def startFail : String → Except HyperError Listening :=
  fun _ => Except.error { msg := "address in use" }

/-- A concrete server as produced by a successful bind on port 3000. -/
def srvB : Server := { inner := { socket := { ip := "0.0.0.0", port := 3000 }, accepting := true } }

/-- A request whose body exceeds the 10 MiB cap by one byte. -/
def reqBig : Request := { method := Method.post, path := "/parse_file", bodyLen := 1024 * 1024 * 10 + 1 }

/-- A small request to an unrouted path. -/
def reqNope : Request := { method := Method.get, path := "/nope", bodyLen := 0 }

-- -----------------------------------------------------------------------
-- Shared helper lemmas.

/-- Running the before-phase of the chain built by `serve` never alters the
chain and leaves the context with the engine reference attached and the
10 MiB cap published. -/
theorem runBeforePhase_serveChain (c : Config) (eng : EngineInstance) :
    runBeforePhase (serveChain c eng).before initCtx =
      ((serveChain c eng).before,
        { engineRef := some eng.id, maxLen := some (1024 * 1024 * 10) }) := by
  cases hc : c.print_http_logs <;>
    simp [serveChain, hc, Chain.new, Chain.linkBefore, Chain.linkAfter,
      runBeforePhase, runBefore, initCtx]

-- -----------------------------------------------------------------------
-- Claim theorems.

/-- C1: for every `Config` (and installed engine), the chain built by
`serve` has before-handlers in exactly the order: the request-logging
before-handler iff `print_http_logs`, then the engine-attach handler,
then the body-size-limit handler; and its after-handlers are exactly the
request-logging after-handler iff `print_http_logs`. -/
theorem serveChain_order (c : Config) (eng : EngineInstance) :
    (serveChain c eng).before =
      (if c.print_http_logs then [BeforeMiddleware.logBefore] else []) ++
        [BeforeMiddleware.engineWrite eng,
          BeforeMiddleware.maxBodyLength (1024 * 1024 * 10)] ∧
    (serveChain c eng).after =
      (if c.print_http_logs then [AfterMiddleware.logAfter] else []) := by
  cases hc : c.print_http_logs <;>
    simp [serveChain, hc, Chain.new, Chain.linkBefore, Chain.linkAfter]

/-- C2: a request whose body exceeds the fixed 10 MiB cap is rejected
with a client-error response and no route handler is invoked, and the
cap linked into the chain is `1024 * 1024 * 10` for every `Config`. -/
theorem bodyLimit_rejects_oversized (c : Config) (eng : EngineInstance) (req : Request)
    (h : 1024 * 1024 * 10 < req.bodyLen) :
    isClientError (processRequest (serveChain c eng) req).2.response = true ∧
    (processRequest (serveChain c eng) req).2.invoked = none ∧
    (∀ (c2 : Config) (eng2 : EngineInstance) (cap : Nat),
        BeforeMiddleware.maxBodyLength cap ∈ (serveChain c2 eng2).before →
        cap = 1024 * 1024 * 10) := by
  refine ⟨?_, ?_, ?_⟩
  · simp [processRequest, runBeforePhase_serveChain, h, isClientError,
      bodyTooLargeResponse]
  · simp [processRequest, runBeforePhase_serveChain, h]
  · intro c2 eng2 cap hmem
    cases hc : c2.print_http_logs <;>
      simp [serveChain, hc, Chain.new, Chain.linkBefore, Chain.linkAfter] at hmem <;>
      tauto

/-- C2 witness: a concrete request one byte over the cap is rejected with
a client error and no handler invocation. -/
theorem bodyLimit_rejects_oversized_witness :
    isClientError (processRequest (serveChain cfg0 eng0) reqBig).2.response = true ∧
    (processRequest (serveChain cfg0 eng0) reqBig).2.invoked = none :=
  ⟨(bodyLimit_rejects_oversized cfg0 eng0 reqBig (by decide)).1,
    (bodyLimit_rejects_oversized cfg0 eng0 reqBig (by decide)).2.1⟩

/-- C3: the router maps exactly the four fixed (method, path) pairs to
their handlers by exact match; every other combination is unrouted, and
dispatching such a request (whose body is within the cap) yields the
standard not-found response with no handler invoked. -/
theorem router_exact_match (c : Config) (eng : EngineInstance) :
    routerLookup Method.post "/parse_file" = some Handler.fileParse ∧
    routerLookup Method.post "/find_definition" = some Handler.definitionFind ∧
    routerLookup Method.post "/list_completions" = some Handler.completionList ∧
    routerLookup Method.get "/ping" = some Handler.pingPong ∧
    (∀ (m : Method) (p : String),
        ¬((m = Method.post ∧ p = "/parse_file") ∨
          (m = Method.post ∧ p = "/find_definition") ∨
          (m = Method.post ∧ p = "/list_completions") ∨
          (m = Method.get ∧ p = "/ping")) →
        routerLookup m p = none) ∧
    (∀ req : Request, routerLookup req.method req.path = none →
        req.bodyLen ≤ 1024 * 1024 * 10 →
        (processRequest (serveChain c eng) req).2 =
          { response := notFoundResponse, invoked := none }) := by
  refine ⟨by decide, by decide, by decide, by decide, ?_, ?_⟩
  · intro m p hn
    have hA := fun a => hn (Or.inl a)
    have hB := fun b => hn (Or.inr (Or.inl b))
    have hC := fun b => hn (Or.inr (Or.inr (Or.inl b)))
    have hD := fun b => hn (Or.inr (Or.inr (Or.inr b)))
    unfold routerLookup
    rw [if_neg hA, if_neg hB, if_neg hC, if_neg hD]
  · intro req hlook hlen
    simp [processRequest, runBeforePhase_serveChain, Nat.not_lt.mpr hlen,
      dispatch, hlook]

/-- C3 witness: a concrete unrouted request yields the not-found outcome
with no handler invoked. -/
theorem router_exact_match_witness :
    routerLookup Method.get "/nope" = none ∧
    (processRequest (serveChain cfg0 eng0) reqNope).2 =
      { response := notFoundResponse, invoked := none } :=
  ⟨(router_exact_match cfg0 eng0).2.2.2.2.1 Method.get "/nope" (by decide),
    (router_exact_match cfg0 eng0).2.2.2.2.2 reqNope (by decide) (by decide)⟩

/-- C4: `serve` returns `Ok` exactly when starting the listener
succeeds; a start failure is returned as `Err(Error::HttpServer(e))`
wrapping the underlying error, with no `Server` value produced. -/
theorem serve_ok_iff_listener_ok (c : Config) (eng : EngineInstance)
    (startHttp : String → Except HyperError Listening) :
    ((∃ s, serve c eng startHttp = Except.ok s) ↔
      (∃ l, startHttp (serveHost c) = Except.ok l)) ∧
    (∀ e, startHttp (serveHost c) = Except.error e →
      serve c eng startHttp = Except.error (Error.HttpServer e)) := by
  unfold serve
  cases h : startHttp (serveHost c) <;> simp [h, Error.fromHyper]

/-- C4 witness: with a listener start that fails with "address in use",
`serve` returns exactly that error wrapped in `Error::HttpServer`. -/
theorem serve_ok_iff_listener_ok_witness :
    serve cfg0 eng0 startFail =
      Except.error (Error.HttpServer { msg := "address in use" }) :=
  (serve_ok_iff_listener_ok cfg0 eng0 startFail).2 { msg := "address in use" } rfl

/-- C5: `serve` hands the listener-start operation the host string
`"0.0.0.0:" ++ port`, binding all local interfaces; and after a
successful start the bound address is queryable as a string of the form
`"<ip>:<port>"`. -/
theorem serve_binds_all_interfaces (c : Config) (eng : EngineInstance) (s : Server)
    (h : serve c eng hyperHttpBindOk = Except.ok s) :
    serveHost c = "0.0.0.0:" ++ toString c.port ∧
    ∃ (ip : String) (pt : Nat), Server.addr s = ip ++ ":" ++ toString pt := by
  refine ⟨rfl, ?_⟩
  unfold serve at h
  cases hb : hyperHttpBindOk (serveHost c) with
  | ok l =>
      rw [hb] at h
      simp at h
      subst h
      exact ⟨l.socket.ip, l.socket.port, rfl⟩
  | error e =>
      rw [hb] at h
      simp at h

/-- C5 witness: a successful bind on port 3000 yields the address string
`"0.0.0.0" ++ ":" ++ "3000"`. -/
theorem serve_binds_all_interfaces_witness :
    serveHost cfg3000 = "0.0.0.0:" ++ toString cfg3000.port ∧
    ∃ (ip : String) (pt : Nat), Server.addr srvB = ip ++ ":" ++ toString pt :=
  serve_binds_all_interfaces cfg3000 eng0 srvB (by rfl)

/-- C6: after a successful `serve` with `port = 3000`, `Server::addr`
returns a string ending in `":3000"`. -/
theorem addr_ends_with_configured_port (c : Config) (eng : EngineInstance) (s : Server)
    (h3 : c.port = 3000) (h : serve c eng hyperHttpBindOk = Except.ok s) :
    ∃ pre, Server.addr s = pre ++ ":3000" := by
  have hh : serveHost c = "0.0.0.0:3000" := by
    unfold serveHost
    rw [h3]
    rfl
  unfold serve at h
  rw [hh] at h
  have hb : hyperHttpBindOk "0.0.0.0:3000" =
      Except.ok { socket := { ip := "0.0.0.0", port := 3000 }, accepting := true } := rfl
  rw [hb] at h
  simp at h
  subst h
  exact ⟨"0.0.0.0", by decide⟩

/-- C6 witness: the concrete port-3000 configuration produces an address
ending in `":3000"`. -/
theorem addr_ends_with_configured_port_witness :
    ∃ pre, Server.addr srvB = pre ++ ":3000" :=
  addr_ends_with_configured_port cfg3000 eng0 srvB rfl (by rfl)

/-- C7: `Server::close` succeeds exactly when the underlying listener
close succeeds; on success the listener no longer accepts connections,
and on failure the result is `Err(Error::HttpServer(e))` wrapping the
underlying listener error — no other error ever surfaces. -/
theorem close_ok_iff_listener_close_ok (s : Server) (outcome : Except HyperError Unit) :
    (((Server.close s outcome).1 = Except.ok ()) ↔ outcome = Except.ok ()) ∧
    (outcome = Except.ok () →
      Server.close s outcome =
        (Except.ok (), { inner := { s.inner with accepting := false } })) ∧
    (∀ e, outcome = Except.error e →
      Server.close s outcome = (Except.error (Error.HttpServer e), s)) := by
  cases outcome with
  | ok u =>
      cases u
      simp [Server.close, Listening.closeListener]
  | error e =>
      simp [Server.close, Listening.closeListener, Error.fromHyper]

/-- C7 witness: closing a concrete server with a successful listener
close yields `Ok(())` and a listener that no longer accepts. -/
theorem close_ok_iff_listener_close_ok_witness :
    Server.close srvB (Except.ok ()) =
      (Except.ok (), { inner := { srvB.inner with accepting := false } }) :=
  (close_ok_iff_listener_close_ok srvB (Except.ok ())).2.1 rfl

/-- C9: the engine-attach before-handler is pure and idempotent per
request: it leaves the engine-provider entry (hence the installed
instance) unchanged, exposes a reference to exactly the serve-time
instance in the request context, running it twice equals running it
once, processing any request leaves the whole chain unchanged, and the
chain holds exactly one engine-provider entry — the one holding the
serve-time instance. -/
theorem engineAttach_pure_idempotent (eng : EngineInstance) (ctx : ReqCtx)
    (c : Config) (req : Request) :
    (runBefore (BeforeMiddleware.engineWrite eng) ctx).1 =
      BeforeMiddleware.engineWrite eng ∧
    (runBefore (BeforeMiddleware.engineWrite eng) ctx).2.engineRef = some eng.id ∧
    runBefore (BeforeMiddleware.engineWrite eng)
        (runBefore (BeforeMiddleware.engineWrite eng) ctx).2 =
      runBefore (BeforeMiddleware.engineWrite eng) ctx ∧
    (processRequest (serveChain c eng) req).1 = serveChain c eng ∧
    (serveChain c eng).before.filter isEngineWrite =
      [BeforeMiddleware.engineWrite eng] := by
  refine ⟨rfl, rfl, rfl, ?_, ?_⟩
  · simp [processRequest, runBeforePhase_serveChain]
  · cases hc : c.print_http_logs <;>
      simp [serveChain, hc, Chain.new, Chain.linkBefore, Chain.linkAfter,
        isEngineWrite]

/-- C10: the `http` module's `Error` type has exactly the one
constructor `HttpServer` wrapping an underlying hyper error, and every
error returned by `serve` or `Server::close` is of that form. -/
theorem error_taxonomy :
    (∀ err : Error, ∃ e, err = Error.HttpServer e) ∧
    (∀ (c : Config) (eng : EngineInstance)
        (startHttp : String → Except HyperError Listening) (err : Error),
        serve c eng startHttp = Except.error err → ∃ e, err = Error.HttpServer e) ∧
    (∀ (s : Server) (outcome : Except HyperError Unit) (err : Error),
        (Server.close s outcome).1 = Except.error err →
        ∃ e, err = Error.HttpServer e) := by
  refine ⟨fun err => ?_, fun c eng startHttp err h => ?_, fun s outcome err h => ?_⟩
  · cases err with
    | HttpServer e => exact ⟨e, rfl⟩
  · unfold serve at h
    cases hb : startHttp (serveHost c) with
    | ok l => rw [hb] at h; simp at h
    | error e =>
        rw [hb] at h
        simp [Error.fromHyper] at h
        exact ⟨e, h.symm⟩
  · cases outcome with
    | ok u => cases u; simp [Server.close, Listening.closeListener] at h
    | error e =>
        simp [Server.close, Listening.closeListener, Error.fromHyper] at h
        exact ⟨e, h.symm⟩

/-- C10 witness: the error produced by a failing listener start is of
the `HttpServer` form. -/
theorem error_taxonomy_witness :
    ∃ e, Error.HttpServer { msg := "address in use" } = Error.HttpServer e :=
  error_taxonomy.2.1 cfg0 eng0 startFail
    (Error.HttpServer { msg := "address in use" }) rfl

end Racerd
